import Mathlib

/-!
Shallow embedding of the lido-keys-api update/cache core:
`KeysUpdateService` (keys-update job, metrics cache, liveness watchdog),
`StakingRouterFetchService.getStakingModules`, and the storage-query part of
`RegistryService`.  Machine integers are modelled as `Nat`/`Int` (JS numbers in
the relevant ranges are exact), wall-clock time in whole seconds, and fallible
chain/database reads as `Except`/`Option`.
-/

/-- `RegistryMeta` from `@lido-nestjs/registry`: the update-sequence metadata
(`keysOpIndex` nonce, block number, block timestamp in seconds). -/
structure RegistryMeta where
  keysOpIndex : Nat
  blockNumber : Nat
  timestamp : Nat
deriving DecidableEq

/-- `RegistryOperator`: the fields of a curated-module operator that the
metrics code reads. -/
structure RegistryOperator where
  index : Nat
  usedSigningKeys : Nat
  totalSigningKeys : Nat
deriving DecidableEq

/-- `STAKING_MODULE_TYPE` from `staking-router-modules`: closed enumeration of
known module types (only the curated v1 type occurs in the source). -/
inductive STAKING_MODULE_TYPE where
  | CURATED_ONCHAIN_V1_TYPE
deriving DecidableEq

/-- `StakingModule` from `common/contracts`: the transformed module record that
`StakingRouterFetchService.getStakingModules` returns and
`KeysUpdateService.stakingModules` caches. -/
structure StakingModule where
  id : Nat
  stakingModuleAddress : String
  stakingModuleFee : Nat
  treasuryFee : Nat
  targetShare : Nat
  status : Nat
  name : String
  type : STAKING_MODULE_TYPE
  lastDepositAt : Nat
  lastDepositBlock : Nat
  exitedValidatorsCount : Nat
deriving DecidableEq

/-- A staking-module struct as returned on-chain by
`StakingRouter.getStakingModules`, before the service transforms it
(`BigNumber` fields already taken through `.toNumber()`). -/
structure RawStakingModule where
  id : Nat
  stakingModuleAddress : String
  stakingModuleFee : Nat
  treasuryFee : Nat
  targetShare : Nat
  status : Nat
  name : String
  lastDepositAt : Nat
  lastDepositBlock : Nat
  exitedValidatorsCount : Nat
deriving DecidableEq

/-! ## JS loose equality (`==`) for module-identifier matching

`KeysUpdateService.getStakingModule` deliberately uses `==` because the
identifier may arrive as a string or as a number.  We model the JS values that
occur there (strings and integral numbers) and JS `ToNumber` on the string
shapes that can occur (empty string, decimal integer literals, `0x` hex
literals); any other string is NaN (`none`), and NaN compares unequal. -/

/-- A JS value that can appear as a module identifier: a string or a number. -/
inductive JsVal where
  | str (s : String)
  | num (n : Int)
deriving DecidableEq

/-- Value of a hexadecimal digit character, `none` for a non-digit. -/
def hexDigitVal (c : Char) : Option Nat :=
  if '0' ≤ c ∧ c ≤ '9' then some (c.toNat - '0'.toNat)
  else if 'a' ≤ c ∧ c ≤ 'f' then some (c.toNat - 'a'.toNat + 10)
  else if 'A' ≤ c ∧ c ≤ 'F' then some (c.toNat - 'A'.toNat + 10)
  else none

/-- Reads a digit string in the given base (10 or 16); `none` if some
character is not a digit of that base. -/
def digitsVal (base : Nat) (cs : List Char) : Option Nat :=
  cs.foldl
    (fun acc c =>
      match acc, hexDigitVal c with
      | some a, some d => if d < base then some (a * base + d) else none
      | _, _ => none)
    (some 0)

/-- JS `ToNumber` on a string, restricted to the integral shapes relevant to
module identifiers: `""` is `0`, `0x`/`0X` prefixes are hex, an optional minus
sign precedes decimal digits; everything else is NaN (`none`). -/
def jsToNumber (s : String) : Option Int :=
  match s.toList with
  | [] => some 0
  | '0' :: 'x' :: rest =>
    if rest = [] then none else (digitsVal 16 rest).map Int.ofNat
  | '0' :: 'X' :: rest =>
    if rest = [] then none else (digitsVal 16 rest).map Int.ofNat
  | '-' :: rest =>
    if rest = [] then none else (digitsVal 10 rest).map (fun n => -(n : Int))
  | cs => (digitsVal 10 cs).map Int.ofNat

/-- JS loose equality `==` between the values of `JsVal`: same-type comparison
is value equality; a number and a string compare by `ToNumber` on the string
(NaN equals nothing). -/
def looseEq : JsVal → JsVal → Bool
  | JsVal.num a, JsVal.num b => a == b
  | JsVal.str a, JsVal.str b => a == b
  | JsVal.num a, JsVal.str b => jsToNumber b == some a
  | JsVal.str a, JsVal.num b => jsToNumber a == some b

/-- The predicate of `KeysUpdateService.getStakingModule`'s `find` callback:
`module.stakingModuleAddress == moduleId || module.id == moduleId`. -/
def moduleMatches (m : StakingModule) (moduleId : JsVal) : Bool :=
  looseEq (JsVal.str m.stakingModuleAddress) moduleId ||
    looseEq (JsVal.num (Int.ofNat m.id)) moduleId

/-- `KeysUpdateService.getStakingModule(moduleId)`: `find` over the cached
module list, matching by address or id with JS `==`; `undefined` is `none`. -/
def getStakingModule (stakingModules : List StakingModule) (moduleId : JsVal) :
    Option StakingModule :=
  stakingModules.find? (fun m => moduleMatches m moduleId)

/-! ## RegistryService storage queries -/

/-- `RegistryKey` from `@lido-nestjs/registry`: the fields relevant to the
pubkey lookup (the `key` column stores the pubkey). -/
structure RegistryKey where
  index : Nat
  operatorIndex : Nat
  key : String
  used : Bool
deriving DecidableEq

/-- One storage snapshot of the registry database: the keys table and the
(at most one) meta row. -/
structure RegistryDb where
  keys : List RegistryKey
  meta : Option RegistryMeta
deriving DecidableEq

/-- `RegistryKeyStorageService.findByPubkey`: all stored keys whose `key`
column equals the given pubkey. -/
def findByPubkey (db : RegistryDb) (pubkey : String) : List RegistryKey :=
  db.keys.filter (fun k => k.key == pubkey)

/-- `RegistryMetaStorageService.get` as used by
`RegistryService.getMetaDataFromStorage`. -/
def getMetaDataFromStorage (db : RegistryDb) : Option RegistryMeta :=
  db.meta

/-- `entityManager.transactional`: runs the callback against one storage
snapshot, so every read inside it sees the same database state. -/
def transactional {α : Type} (db : RegistryDb) (f : RegistryDb → α) : α :=
  f db

/-- JS `String.prototype.toLocaleLowerCase` on the ASCII pubkey strings the
service handles: lowercase every character. -/
def jsToLocaleLowerCase (s : String) : String :=
  ⟨s.data.map Char.toLower⟩

/-- `RegistryService.getKeyWithMetaByPubkey(pubkey)`: inside one transaction,
looks up the lowercased pubkey in key storage and reads the meta row. -/
def getKeyWithMetaByPubkey (db : RegistryDb) (pubkey : String) :
    List RegistryKey × Option RegistryMeta :=
  transactional db
    (fun snap => (findByPubkey snap (jsToLocaleLowerCase pubkey),
                  getMetaDataFromStorage snap))

/-! ## The OneAtTime scheduler guard (spec-modelled) -/

/-- Modelled from the spec: the `OneAtTime` decorator guarding
`KeysUpdateService.updateKeys` lives in `common/decorators/oneAtTime`, which is
not among the provided sources.  Section 4.3 of the spec describes it as a
state machine: "`Idle --tick--> Running`: only if not already `Running`
(mutual exclusion — a tick arriving while a refresh is in progress is dropped
entirely, not queued)" and "`Running --done--> Idle`: regardless of
success/failure".  `activeCount` counts refresh executions currently running
and `queuedRuns` counts deferred runs waiting to execute (the spec mandates
ticks are dropped, never queued). -/
structure OneAtTimeState where
  activeCount : Nat
  queuedRuns : Nat
deriving DecidableEq

/-- A trigger arriving at the guard: a refresh trigger (startup run, periodic
tick, overlapping invocation) or the completion of the running refresh. -/
inductive SchedTrigger where
  | tick
  | done
deriving DecidableEq

/-- Modelled from the spec (see `OneAtTimeState`): one transition of the
`OneAtTime` guard.  A tick while a run is active is dropped (state unchanged,
nothing queued); a tick while idle starts a run; completion ends the run. -/
def oneAtTimeStep (s : OneAtTimeState) : SchedTrigger → OneAtTimeState
  | SchedTrigger.tick =>
    if s.activeCount ≠ 0 then s else { s with activeCount := 1 }
  | SchedTrigger.done => { s with activeCount := s.activeCount - 1 }

/-- Runs the `OneAtTime` guard over a sequence of triggers. -/
def oneAtTimeRun (s : OneAtTimeState) : List SchedTrigger → OneAtTimeState
  | [] => s
  | e :: es => oneAtTimeRun (oneAtTimeStep s e) es

/-! ## Prometheus gauges -/

/-- Label set of `registryNumberOfKeysBySRModuleAndOperator`: operator index,
staking-router module id, and the `used: 'true' | 'false'` flag. -/
structure OperatorLabels where
  operator : Nat
  srModuleId : Nat
  used : Bool
deriving DecidableEq

/-- `Gauge.set(labels, v)` on the per-operator gauge: replaces the value of an
existing label set, otherwise adds the labelled entry. -/
def gaugeSet (g : List (OperatorLabels × Int)) (l : OperatorLabels) (v : Int) :
    List (OperatorLabels × Int) :=
  if l ∈ g.map Prod.fst then
    g.map (fun e => if e.1 = l then (l, v) else e)
  else g ++ [(l, v)]

/-- `Gauge.set({ srModuleId }, v)` on the `registryNonce` gauge. -/
def nonceGaugeSet (g : List (Nat × Nat)) (srModuleId v : Nat) :
    List (Nat × Nat) :=
  if srModuleId ∈ g.map Prod.fst then
    g.map (fun e => if e.1 = srModuleId then (srModuleId, v) else e)
  else g ++ [(srModuleId, v)]

/-- `Gauge.reset()`: removes every labelled entry. -/
def gaugeReset (_ : List (OperatorLabels × Int)) : List (OperatorLabels × Int) :=
  []

/-- The two entries `setCuratedOperatorsMetric` writes for one operator:
used keys under `used: 'true'`, and `totalSigningKeys - usedSigningKeys`
under `used: 'false'` (both with `srModuleId: 1`). -/
def operatorEntries (op : RegistryOperator) : List (OperatorLabels × Int) :=
  [(⟨op.index, 1, true⟩, (op.usedSigningKeys : Int)),
   (⟨op.index, 1, false⟩,
     (op.totalSigningKeys : Int) - (op.usedSigningKeys : Int))]

/-- The body of the `forEach` in `setCuratedOperatorsMetric`: two `set` calls
for one operator. -/
def operatorMetricStep (acc : List (OperatorLabels × Int))
    (op : RegistryOperator) : List (OperatorLabels × Int) :=
  gaugeSet
    (gaugeSet acc ⟨op.index, 1, true⟩ (op.usedSigningKeys : Int))
    ⟨op.index, 1, false⟩
    ((op.totalSigningKeys : Int) - (op.usedSigningKeys : Int))

/-- `KeysUpdateService.setCuratedOperatorsMetric`: resets the per-operator
gauge, then for each cached curated operator sets its used and unused key
counts. -/
def setCuratedOperatorsMetric (g : List (OperatorLabels × Int))
    (curatedOperators : List RegistryOperator) : List (OperatorLabels × Int) :=
  curatedOperators.foldl operatorMetricStep (gaugeReset g)

/-- The Prometheus gauges touched by `KeysUpdateService`. -/
structure Metrics where
  registryLastUpdate : Option Nat
  registryBlockNumber : Option Nat
  registryNonce : List (Nat × Nat)
  registryNumberOfKeysBySRModuleAndOperator : List (OperatorLabels × Int)
deriving DecidableEq

/-! ## KeysUpdateService state and the refresh cycle -/

/-- The structured error raised when the watchdog deadline fires; it carries
the last known block number. -/
structure KeyOutdatedError where
  message : String
  lastBlock : Option Nat
deriving DecidableEq

/-- The mutable state of `KeysUpdateService` plus the process-level context it
interacts with: wall clock (in whole seconds), the set of pending `setTimeout`
deadlines (in seconds, absolute), the `updateDeadlineTimer` handle, the
process-exit flag, and what has been logged. -/
structure SvcState where
  now : Nat
  lastTimestampSec : Option Nat
  lastBlockNumber : Option Nat
  curatedNonce : Option Nat
  curatedOperators : List RegistryOperator
  stakingModules : List StakingModule
  pendingTimers : List Nat
  updateDeadlineTimer : Option Nat
  exited : Bool
  loggedErrors : List KeyOutdatedError
  loggedMessages : List String
  metrics : Metrics
deriving DecidableEq

/-- `UPDATE_KEYS_TIMEOUT_MS = 30 * 60 * 1000` (30 minutes). -/
def UPDATE_KEYS_TIMEOUT_MS : Nat := 30 * 60 * 1000

/-- What one call to `CuratedModuleService.getOperatorsWithMeta` returns. -/
structure CuratedFetch where
  operators : List RegistryOperator
  meta : Option RegistryMeta
deriving DecidableEq

/-- The external collaborators one refresh cycle reads: the execution
provider's block hash, the staking-router module fetch, the curated module's
key update, and the curated operators/meta read.  Each call may throw, which
`Except.error` models. -/
structure ChainEnv where
  getBlockHash : Except String String
  getStakingModules : String → Except String (List StakingModule)
  curatedUpdateKeys : String → Except String Unit
  getOperatorsWithMeta : Except String CuratedFetch

/-- The `isUpdated` condition of `checkKeysUpdateTimeout`:
`this.lastTimestampSec && currTimestampSec - this.lastTimestampSec <
this.UPDATE_KEYS_TIMEOUT_MS / 1000`.  A missing (`undefined`) or zero
timestamp is falsy; the subtraction is over JS numbers, hence `Int`. -/
def isUpdated (s : SvcState) : Bool :=
  match s.lastTimestampSec with
  | none => false
  | some ts =>
    ts ≠ 0 && ((s.now : Int) - (ts : Int) < (UPDATE_KEYS_TIMEOUT_MS : Int) / 1000)

/-- `KeysUpdateService.checkKeysUpdateTimeout`: clears the previous deadline
timer only when a handle exists and `isUpdated` holds, then arms a new
deadline `UPDATE_KEYS_TIMEOUT_MS` in the future and stores its handle. -/
def checkKeysUpdateTimeout (s : SvcState) : SvcState :=
  let pendingAfterClear :=
    match s.updateDeadlineTimer with
    | some t => if isUpdated s then s.pendingTimers.erase t else s.pendingTimers
    | none => s.pendingTimers
  let deadline := s.now + UPDATE_KEYS_TIMEOUT_MS / 1000
  { s with
    pendingTimers := pendingAfterClear ++ [deadline],
    updateDeadlineTimer := some deadline }

/-- `KeysUpdateService.updateCuratedMetricsCache`: stores the fetched nonce
(`meta?.keysOpIndex ?? this.curatedNonce`) and replaces the cached operator
list, returning the fetched meta. -/
def updateCuratedMetricsCache (s : SvcState) (fetch : CuratedFetch) :
    SvcState × Option RegistryMeta :=
  ({ s with
      curatedNonce :=
        match fetch.meta with
        | some m => some m.keysOpIndex
        | none => s.curatedNonce,
      curatedOperators := fetch.operators },
   fetch.meta)

/-- `KeysUpdateService.updateMetricsCache`: runs the curated-cache update and
stores `meta?.timestamp ?? this.lastTimestampSec` and
`meta?.blockNumber ?? this.lastBlockNumber`. -/
def updateMetricsCache (s : SvcState) (fetch : CuratedFetch) : SvcState :=
  let p := updateCuratedMetricsCache s fetch
  { p.1 with
    lastTimestampSec :=
      match p.2 with
      | some m => some m.timestamp
      | none => p.1.lastTimestampSec,
    lastBlockNumber :=
      match p.2 with
      | some m => some m.blockNumber
      | none => p.1.lastBlockNumber }

/-- `KeysUpdateService.setMetrics` (inlining `setCuratedMetrics`): publishes
the cached timestamp, block number and nonce when truthy, and rebuilds the
per-operator gauge from the cached operator list. -/
def setMetrics (s : SvcState) : SvcState :=
  { s with
    metrics :=
      let m := s.metrics
      let m :=
        match s.lastTimestampSec with
        | some ts =>
          if ts ≠ 0 then { m with registryLastUpdate := some ts } else m
        | none => m
      let m :=
        match s.lastBlockNumber with
        | some bn =>
          if bn ≠ 0 then { m with registryBlockNumber := some bn } else m
        | none => m
      let m :=
        match s.curatedNonce with
        | some n =>
          if n ≠ 0 then
            { m with registryNonce := nonceGaugeSet m.registryNonce 1 n }
          else m
        | none => m
      { m with
        registryNumberOfKeysBySRModuleAndOperator :=
          setCuratedOperatorsMetric m.registryNumberOfKeysBySRModuleAndOperator
            s.curatedOperators } }

/-- The `Promise.all` fan-out inside `updateKeys`: for every cached module of
the curated type, run `curatedModuleService.updateKeys(blockHash)`; the first
failure aborts the cycle. -/
def updateModulesKeys (env : ChainEnv) (blockHash : String) :
    List StakingModule → Except String Unit
  | [] => Except.ok ()
  | m :: rest =>
    if m.type = STAKING_MODULE_TYPE.CURATED_ONCHAIN_V1_TYPE then
      match env.curatedUpdateKeys blockHash with
      | Except.error e => Except.error e
      | Except.ok _ => updateModulesKeys env blockHash rest
    else updateModulesKeys env blockHash rest

/-- `KeysUpdateService.updateKeys` (the body `jobService.wrapJob` runs):
resolves the latest block hash, fetches the module list and assigns it to
`this.stakingModules`, updates curated keys, refreshes the metrics cache,
publishes metrics, and re-arms the watchdog.  A thrown error anywhere aborts
the remaining steps; the returned `Except` is what the caller's `.catch`
sees. -/
def updateKeys (env : ChainEnv) (s : SvcState) : SvcState × Except String Unit :=
  match env.getBlockHash with
  | Except.error e => (s, Except.error e)
  | Except.ok blockHash =>
    match env.getStakingModules blockHash with
    | Except.error e => (s, Except.error e)
    | Except.ok modules =>
      match updateModulesKeys env blockHash modules with
      | Except.error e => ({ s with stakingModules := modules }, Except.error e)
      | Except.ok _ =>
        match env.getOperatorsWithMeta with
        | Except.error e => ({ s with stakingModules := modules }, Except.error e)
        | Except.ok fetch =>
          (checkKeysUpdateTimeout (setMetrics (updateMetricsCache
            { s with stakingModules := modules } fetch)), Except.ok ())

/-- The message of `KeyOutdatedError`:
`There were no keys update more than UPDATE_KEYS_TIMEOUT_MS/(1000*60)
minutes`. -/
def keyOutdatedMessage : String :=
  "There were no keys update more than " ++
    toString (UPDATE_KEYS_TIMEOUT_MS / (1000 * 60)) ++ " minutes"

/-- The `setTimeout` callback of `checkKeysUpdateTimeout`: builds a
`KeyOutdatedError` carrying `this.lastBlockNumber`, logs it, and calls
`process.exit(1)`; the fired timer is no longer pending. -/
def fireDeadline (s : SvcState) (d : Nat) : SvcState :=
  { s with
    pendingTimers := s.pendingTimers.erase d,
    loggedErrors :=
      s.loggedErrors ++ [{ message := keyOutdatedMessage,
                           lastBlock := s.lastBlockNumber }],
    exited := true }

/-! ## Process-level event semantics

Events of the single-threaded runtime: wall-clock time advancing (which may
not skip over a pending timer deadline), a refresh cycle running to completion
at the current instant (its errors caught and logged by the `.catch` handlers
installed in `initialize`), and a pending watchdog deadline firing. -/

/-- A process-level event. -/
inductive Event where
  | advance (dt : Nat)
  | cycle (env : ChainEnv)
  | fire (d : Nat)

/-- Whether the event is a watchdog-deadline firing. -/
def Event.isFire : Event → Bool
  | Event.fire _ => true
  | _ => false

/-- One process step; `none` when the event cannot occur (the process has
exited, time would skip a due timer, or the fired timer is not pending). -/
def step (s : SvcState) : Event → Option SvcState
  | Event.advance dt =>
    if s.exited then none
    else if s.pendingTimers.all (fun d => s.now + dt ≤ d) then
      some { s with now := s.now + dt }
    else none
  | Event.cycle env =>
    if s.exited then none
    else
      let p := updateKeys env s
      match p.2 with
      | Except.ok _ => some p.1
      | Except.error e =>
        some { p.1 with loggedMessages := p.1.loggedMessages ++ [e] }
  | Event.fire d =>
    if s.exited then none
    else if d ∈ s.pendingTimers ∧ s.now ≤ d then
      some (fireDeadline { s with now := d } d)
    else none

/-- Runs a sequence of events; `none` if one of them cannot occur. -/
def run (s : SvcState) : List Event → Option SvcState
  | [] => some s
  | e :: es =>
    match step s e with
    | some s' => run s' es
    | none => none

/-! ## StakingRouterFetchService -/

/-- How `StakingRouterFetchService.getStakingModules` classifies a fetched
module into a known type: the general type lookup is commented out in the
source and a module is classified exactly when its id is `1`, receiving the
curated v1 type ("lets put type by id as we know that list contains only NOR
contract"). -/
def classify (m : RawStakingModule) : Option STAKING_MODULE_TYPE :=
  if m.id = 1 then some STAKING_MODULE_TYPE.CURATED_ONCHAIN_V1_TYPE else none

/-- The error message logged for an unclassifiable module. -/
def unknownModuleMessage (id : Nat) : String :=
  "Staking Module id " ++ toString id ++ " is unknown"

/-- The transformed record built for a classified module (type set to the
curated v1 variant, `BigNumber` fields through `.toNumber()`). -/
def transformKnown (m : RawStakingModule) : StakingModule :=
  { id := m.id,
    stakingModuleAddress := m.stakingModuleAddress,
    stakingModuleFee := m.stakingModuleFee,
    treasuryFee := m.treasuryFee,
    targetShare := m.targetShare,
    status := m.status,
    name := m.name,
    type := STAKING_MODULE_TYPE.CURATED_ONCHAIN_V1_TYPE,
    lastDepositAt := m.lastDepositAt,
    lastDepositBlock := m.lastDepositBlock,
    exitedValidatorsCount := m.exitedValidatorsCount }

/-- Outcome of `StakingRouterFetchService.getStakingModules`: either the
transformed module list, or `process.exit(1)` after logging an error. -/
inductive FetchModulesResult where
  | ok (modules : List StakingModule)
  | processExit (code : Nat) (logged : String)
deriving DecidableEq

/-- `StakingRouterFetchService.getStakingModules`, after the module structs
have been fetched from the router contract: each module with `id != 1` logs
`Staking Module id ... is unknown` and exits the process; otherwise the module
is transformed with the curated v1 type. -/
def fetchStakingModules : List RawStakingModule → FetchModulesResult
  | [] => FetchModulesResult.ok []
  | m :: rest =>
    if m.id ≠ 1 then FetchModulesResult.processExit 1 (unknownModuleMessage m.id)
    else
      match fetchStakingModules rest with
      | FetchModulesResult.ok mods => FetchModulesResult.ok (transformKnown m :: mods)
      | FetchModulesResult.processExit c e => FetchModulesResult.processExit c e

/-! ## Concrete fixtures used by witnesses and counterexamples -/

/-- A gauge state with no samples. -/
def metrics0 : Metrics :=
  { registryLastUpdate := none, registryBlockNumber := none,
    registryNonce := [], registryNumberOfKeysBySRModuleAndOperator := [] }

/-- The service state right after construction: all cache fields undefined,
no timer pending, clock at zero. -/
def s0 : SvcState :=
  { now := 0, lastTimestampSec := none, lastBlockNumber := none,
    curatedNonce := none, curatedOperators := [], stakingModules := [],
    pendingTimers := [], updateDeadlineTimer := none, exited := false,
    loggedErrors := [], loggedMessages := [], metrics := metrics0 }

/-- A transformed curated staking module. -/
def modW : StakingModule :=
  { id := 1, stakingModuleAddress := "0x1234", stakingModuleFee := 500,
    treasuryFee := 500, targetShare := 10000, status := 0,
    name := "curated-onchain-v1",
    type := STAKING_MODULE_TYPE.CURATED_ONCHAIN_V1_TYPE,
    lastDepositAt := 1680000000, lastDepositBlock := 17000000,
    exitedValidatorsCount := 0 }

/-! ## C1 -/

/-- Invariant preservation for the `OneAtTime` guard: the active-execution
count stays at most one and nothing is ever queued. -/
theorem oneAtTime_inv (evs : List SchedTrigger) (s : OneAtTimeState)
    (h1 : s.activeCount ≤ 1) (h2 : s.queuedRuns = 0) :
    (oneAtTimeRun s evs).activeCount ≤ 1 ∧ (oneAtTimeRun s evs).queuedRuns = 0 := by
  induction evs generalizing s with
  | nil => exact ⟨h1, h2⟩
  | cons e es ih =>
    simp only [oneAtTimeRun]
    apply ih
    · cases e with
      | tick =>
        simp only [oneAtTimeStep]
        split
        · exact h1
        · exact le_refl 1
      | done =>
        simp only [oneAtTimeStep]
        omega
    · cases e with
      | tick =>
        simp only [oneAtTimeStep]
        split
        · exact h2
        · exact h2
      | done => exact h2

/-- C1: at most one execution of the refresh operation is active at any
instant under any sequence of triggers, and a trigger arriving while a
refresh is running is dropped entirely — the subsequent behaviour is
identical to the trace without that trigger, so no deferred run executes
after the in-progress cycle completes, and nothing is ever queued.
(Spec-modelled: the `OneAtTime` decorator source is not under `src/`.) -/
theorem oneAtTime_exclusive (evs : List SchedTrigger) (s : OneAtTimeState)
    (h1 : s.activeCount ≤ 1) (h2 : s.queuedRuns = 0) :
    (oneAtTimeRun s evs).activeCount ≤ 1 ∧
      (oneAtTimeRun s evs).queuedRuns = 0 ∧
      (s.activeCount ≠ 0 →
        oneAtTimeRun s (SchedTrigger.tick :: evs) = oneAtTimeRun s evs) := by
  obtain ⟨ha, hq⟩ := oneAtTime_inv evs s h1 h2
  refine ⟨ha, hq, fun hrun => ?_⟩
  simp only [oneAtTimeRun, oneAtTimeStep, if_pos hrun]

/-- Witness for C1: a concrete running state where a tick is dropped. -/
theorem oneAtTime_exclusive_witness :
    (oneAtTimeRun ⟨1, 0⟩ [SchedTrigger.done, SchedTrigger.tick]).activeCount ≤ 1 ∧
      (oneAtTimeRun ⟨1, 0⟩ [SchedTrigger.done, SchedTrigger.tick]).queuedRuns = 0 ∧
      oneAtTimeRun ⟨1, 0⟩
          (SchedTrigger.tick :: [SchedTrigger.done, SchedTrigger.tick]) =
        oneAtTimeRun ⟨1, 0⟩ [SchedTrigger.done, SchedTrigger.tick] := by
  have h := oneAtTime_exclusive [SchedTrigger.done, SchedTrigger.tick]
    ⟨1, 0⟩ (by decide) (by decide)
  exact ⟨h.1, h.2.1, h.2.2 (by decide)⟩

/-! ## C8 -/

/-- C8: `getStakingModule` returns a module exactly when some cached module
matches the identifier by address or by id under JS `==`; a returned module
is a matching cached module, a non-matching identifier yields `none` (absent,
not an error), and an identifier that denotes a module's numeric id matches
whether it arrives as a number or as a string. -/
theorem getStakingModule_matches (mods : List StakingModule) (mid : JsVal) :
    (∀ m, getStakingModule mods mid = some m →
        m ∈ mods ∧ moduleMatches m mid = true) ∧
    (getStakingModule mods mid = none ↔
        ∀ m ∈ mods, moduleMatches m mid = false) ∧
    (∀ m ∈ mods, ∀ s, jsToNumber s = some (Int.ofNat m.id) →
        ∃ m', getStakingModule mods (JsVal.str s) = some m' ∧
          moduleMatches m' (JsVal.str s) = true) ∧
    (∀ m ∈ mods, ∃ m',
        getStakingModule mods (JsVal.num (Int.ofNat m.id)) = some m' ∧
          moduleMatches m' (JsVal.num (Int.ofNat m.id)) = true) := by
  refine ⟨?_, ?_, ?_, ?_⟩
  · intro m h
    unfold getStakingModule at h
    have hp := List.find?_some h
    exact ⟨List.mem_of_find?_eq_some h, hp⟩
  · unfold getStakingModule
    rw [List.find?_eq_none]
    constructor
    · intro h m hm
      simpa using h m hm
    · intro h m hm
      simp [h m hm]
  · intro m hm s hs
    have hmatch : moduleMatches m (JsVal.str s) = true := by
      unfold moduleMatches looseEq
      simp [hs]
    have : ∃ m' ∈ mods, moduleMatches m' (JsVal.str s) = true :=
      ⟨m, hm, hmatch⟩
    rw [← List.find?_isSome] at this
    obtain ⟨m', hm'⟩ := Option.isSome_iff_exists.mp this
    have hp := List.find?_some hm'
    exact ⟨m', hm', hp⟩
  · intro m hm
    have hmatch : moduleMatches m (JsVal.num (Int.ofNat m.id)) = true := by
      unfold moduleMatches looseEq
      simp
    have : ∃ m' ∈ mods, moduleMatches m' (JsVal.num (Int.ofNat m.id)) = true :=
      ⟨m, hm, hmatch⟩
    rw [← List.find?_isSome] at this
    obtain ⟨m', hm'⟩ := Option.isSome_iff_exists.mp this
    have hp := List.find?_some hm'
    exact ⟨m', hm', hp⟩

/-- Witness for C8: module id `1` is found both via the string `"1"` and via
the number `1`, and a non-existent identifier yields `none`. -/
theorem getStakingModule_matches_witness :
    (∃ m', getStakingModule [modW] (JsVal.str "1") = some m' ∧
        moduleMatches m' (JsVal.str "1") = true) ∧
    (∃ m', getStakingModule [modW] (JsVal.num (Int.ofNat modW.id)) = some m' ∧
        moduleMatches m' (JsVal.num (Int.ofNat modW.id)) = true) ∧
    getStakingModule [modW] (JsVal.num 99) = none := by
  have h := getStakingModule_matches [modW] (JsVal.num 99)
  refine ⟨(getStakingModule_matches [modW] (JsVal.str "1")).2.2.1 modW
      (by decide) "1" (by decide),
    h.2.2.2 modW (by decide), h.2.1.mpr ?_⟩
  intro m hm
  have : m = modW := by simpa using hm
  subst this
  decide

/-! ## C10 -/

/-- C10: `getKeyWithMetaByPubkey` lowercases the pubkey before querying
storage, so two pubkeys differing only in letter case issue the same lookup
and return the same keys and meta; every returned key's stored pubkey is the
lowercased input; and keys and meta are both read from the single snapshot of
one `transactional` call. -/
theorem getKeyWithMetaByPubkey_case_insensitive (db : RegistryDb)
    (p1 p2 : String) (h : jsToLocaleLowerCase p1 = jsToLocaleLowerCase p2) :
    getKeyWithMetaByPubkey db p1 = getKeyWithMetaByPubkey db p2 ∧
    getKeyWithMetaByPubkey db p1 =
      transactional db
        (fun snap => (findByPubkey snap (jsToLocaleLowerCase p1),
                      getMetaDataFromStorage snap)) ∧
    (∀ k ∈ (getKeyWithMetaByPubkey db p1).1,
        k.key = jsToLocaleLowerCase p1) := by
  refine ⟨?_, rfl, ?_⟩
  · unfold getKeyWithMetaByPubkey
    rw [h]
  · intro k hk
    have hk' : k ∈ db.keys.filter (fun k => k.key == jsToLocaleLowerCase p1) := hk
    have := (List.mem_filter.mp hk').2
    exact eq_of_beq this

/-- A registry database snapshot with one stored (lowercased) pubkey. -/
def dbW : RegistryDb :=
  { keys := [{ index := 0, operatorIndex := 3, key := "0xab12cd", used := true }],
    meta := some { keysOpIndex := 5, blockNumber := 100, timestamp := 1700000000 } }

/-- Witness for C10: an uppercase and a lowercase spelling of the same pubkey
return identical results. -/
theorem getKeyWithMetaByPubkey_case_insensitive_witness :
    getKeyWithMetaByPubkey dbW "0xAB12CD" = getKeyWithMetaByPubkey dbW "0xab12cd" ∧
    (∀ k ∈ (getKeyWithMetaByPubkey dbW "0xAB12CD").1,
        k.key = jsToLocaleLowerCase "0xAB12CD") := by
  have h := getKeyWithMetaByPubkey_case_insensitive dbW "0xAB12CD" "0xab12cd"
    (by decide)
  exact ⟨h.1, h.2.2⟩

/-! ## C7 -/

/-- C7: a fetched module that cannot be classified into a known type (in the
source, classification is by id: only id 1 is known) makes the module fetch
log `Staking Module id ... is unknown` and exit the process with code 1 —
no module list is returned or cached; when every module is classified, the
fetch succeeds and every returned module carries a known type variant. -/
theorem fetch_modules_fail_fast (raw : List RawStakingModule) :
    ((∀ m ∈ raw, (classify m).isSome) →
        fetchStakingModules raw = FetchModulesResult.ok (raw.map transformKnown) ∧
        ∀ sm ∈ raw.map transformKnown,
          sm.type = STAKING_MODULE_TYPE.CURATED_ONCHAIN_V1_TYPE) ∧
    ((∃ m ∈ raw, (classify m).isNone) →
        ∃ badId, badId ≠ 1 ∧
          fetchStakingModules raw =
            FetchModulesResult.processExit 1 (unknownModuleMessage badId)) := by
  constructor
  · intro hall
    constructor
    · induction raw with
      | nil => rfl
      | cons m rest ih =>
        have hm : m.id = 1 := by
          have := hall m (List.mem_cons_self m rest)
          by_contra hne
          simp [classify, hne] at this
        have hrest := ih (fun x hx => hall x (List.mem_cons_of_mem m hx))
        simp only [fetchStakingModules, hm]
        simp [hrest]
    · intro sm hsm
      obtain ⟨m, _, heq⟩ := List.mem_map.mp hsm
      rw [← heq]
  · intro ⟨m, hm, hbad⟩
    induction raw with
    | nil => cases hm
    | cons a rest ih =>
      by_cases ha : a.id = 1
      · have hm' : m ∈ rest := by
          rcases List.mem_cons.mp hm with h | h
          · subst h
            simp [classify, ha] at hbad
          · exact h
        obtain ⟨badId, hne, heq⟩ := ih hm'
        refine ⟨badId, hne, ?_⟩
        simp only [fetchStakingModules, ha]
        simp [heq]
      · refine ⟨a.id, ha, ?_⟩
        simp [fetchStakingModules, ha]

/-- On-chain module structs used by witnesses: a known one (id 1) and an
unknown one (id 2). -/
def rawW1 : RawStakingModule :=
  { id := 1, stakingModuleAddress := "0x1234", stakingModuleFee := 500,
    treasuryFee := 500, targetShare := 10000, status := 0,
    name := "curated-onchain-v1", lastDepositAt := 1680000000,
    lastDepositBlock := 17000000, exitedValidatorsCount := 0 }

/-- Witness for C7: a classifiable list succeeds with known types. -/
theorem fetch_modules_fail_fast_witness :
    fetchStakingModules [rawW1] = FetchModulesResult.ok ([rawW1].map transformKnown) ∧
    ∀ sm ∈ [rawW1].map transformKnown,
      sm.type = STAKING_MODULE_TYPE.CURATED_ONCHAIN_V1_TYPE :=
  (fetch_modules_fail_fast [rawW1]).1 (by decide)

/-! ## C9 -/

/-- The entries `setCuratedOperatorsMetric` produces for a whole operator
list, in order. -/
def operatorEntriesAll : List RegistryOperator → List (OperatorLabels × Int)
  | [] => []
  | op :: rest => operatorEntries op ++ operatorEntriesAll rest

/-- Setting an absent label appends it. -/
theorem gaugeSet_of_fresh (g : List (OperatorLabels × Int)) (l : OperatorLabels)
    (v : Int) (h : l ∉ g.map Prod.fst) : gaugeSet g l v = g ++ [(l, v)] := by
  unfold gaugeSet
  rw [if_neg h]

/-- One operator step on an accumulator holding no entry for that operator's
index appends exactly the operator's used and unused entries. -/
theorem operatorMetricStep_fresh (acc : List (OperatorLabels × Int))
    (op : RegistryOperator) (h : ∀ e ∈ acc, e.1.operator ≠ op.index) :
    operatorMetricStep acc op = acc ++ operatorEntries op := by
  have h1 : (⟨op.index, 1, true⟩ : OperatorLabels) ∉ acc.map Prod.fst := by
    intro hmem
    obtain ⟨e, he, hel⟩ := List.mem_map.mp hmem
    exact h e he (by rw [hel])
  have hs1 : gaugeSet acc ⟨op.index, 1, true⟩ (op.usedSigningKeys : Int) =
      acc ++ [(⟨op.index, 1, true⟩, (op.usedSigningKeys : Int))] :=
    gaugeSet_of_fresh acc _ _ h1
  have h2 : (⟨op.index, 1, false⟩ : OperatorLabels) ∉
      (acc ++ [((⟨op.index, 1, true⟩ : OperatorLabels),
        (op.usedSigningKeys : Int))]).map Prod.fst := by
    intro hmem
    rw [List.map_append] at hmem
    rcases List.mem_append.mp hmem with hmem | hmem
    · obtain ⟨e, he, hel⟩ := List.mem_map.mp hmem
      exact h e he (by rw [hel])
    · simp at hmem
  unfold operatorMetricStep
  rw [hs1, gaugeSet_of_fresh _ _ _ h2, List.append_assoc]
  rfl

/-- The rebuild loop over a fresh accumulator produces exactly the per-cycle
entries, given distinct operator indices. -/
theorem operatorMetric_fold (ops : List RegistryOperator)
    (g : List (OperatorLabels × Int))
    (hn : (ops.map RegistryOperator.index).Nodup)
    (hg : ∀ e ∈ g, ∀ op ∈ ops, e.1.operator ≠ op.index) :
    ops.foldl operatorMetricStep g = g ++ operatorEntriesAll ops := by
  induction ops generalizing g with
  | nil => simp [operatorEntriesAll]
  | cons op rest ih =>
    have hstep : operatorMetricStep g op = g ++ operatorEntries op :=
      operatorMetricStep_fresh g op
        (fun e he => hg e he op (List.mem_cons_self op rest))
    have hn' : (rest.map RegistryOperator.index).Nodup :=
      (List.nodup_cons.mp hn).2
    have hop : op.index ∉ rest.map RegistryOperator.index :=
      (List.nodup_cons.mp hn).1
    have hg' : ∀ e ∈ g ++ operatorEntries op, ∀ op' ∈ rest,
        e.1.operator ≠ op'.index := by
      intro e he op' hop'
      rcases List.mem_append.mp he with he | he
      · exact hg e he op' (List.mem_cons_of_mem op hop')
      · have hidx : e.1.operator = op.index := by
          simp only [operatorEntries, List.mem_cons, List.not_mem_nil,
            or_false] at he
          rcases he with he | he <;> rw [he]
        rw [hidx]
        intro hcontra
        exact hop (hcontra ▸ List.mem_map_of_mem RegistryOperator.index hop')
      
    calc (op :: rest).foldl operatorMetricStep g
        = rest.foldl operatorMetricStep (operatorMetricStep g op) := rfl
      _ = (g ++ operatorEntries op) ++ operatorEntriesAll rest := by
          rw [hstep]
          exact ih (g ++ operatorEntries op) hn' hg'
      _ = g ++ operatorEntriesAll (op :: rest) := by
          rw [List.append_assoc]
          rfl

/-- Filtering the built entries for an index no operator has yields nothing. -/
theorem operatorEntriesAll_filter_ne (ops : List RegistryOperator) (i : Nat)
    (h : ∀ op ∈ ops, op.index ≠ i) :
    (operatorEntriesAll ops).filter (fun e => e.1.operator == i) = [] := by
  induction ops with
  | nil => rfl
  | cons op rest ih =>
    have hne : op.index ≠ i := h op (List.mem_cons_self op rest)
    simp only [operatorEntriesAll, List.filter_append]
    rw [ih (fun x hx => h x (List.mem_cons_of_mem op hx))]
    simp [operatorEntries, hne]

/-- Filtering the built entries for one listed operator's index yields
exactly that operator's two entries, given distinct indices. -/
theorem operatorEntriesAll_filter_eq (ops : List RegistryOperator)
    (op : RegistryOperator) (hn : (ops.map RegistryOperator.index).Nodup)
    (hmem : op ∈ ops) :
    (operatorEntriesAll ops).filter (fun e => e.1.operator == op.index) =
      operatorEntries op := by
  induction ops with
  | nil => cases hmem
  | cons a rest ih =>
    have hn' : (rest.map RegistryOperator.index).Nodup :=
      (List.nodup_cons.mp hn).2
    have ha : a.index ∉ rest.map RegistryOperator.index :=
      (List.nodup_cons.mp hn).1
    simp only [operatorEntriesAll, List.filter_append]
    rcases List.mem_cons.mp hmem with h | h
    · subst h
      rw [operatorEntriesAll_filter_ne rest op.index]
      · simp [operatorEntries]
      · intro x hx hcontra
        exact ha (hcontra ▸ List.mem_map_of_mem RegistryOperator.index hx)
    · have hne : a.index ≠ op.index := by
        intro hcontra
        exact ha (hcontra ▸ List.mem_map_of_mem RegistryOperator.index h)
      rw [ih hn' h]
      simp [operatorEntries, hne]

/-- C9: after the per-operator metric rebuild, the gauge holds exactly one
used and one unused entry for each operator of the current cycle's list and
nothing else — whatever the gauge held before (including entries of operators
from the previous cycle) is gone, because the gauge is fully reset before
being rebuilt. -/
theorem operator_metrics_rebuild (gPrev : List (OperatorLabels × Int))
    (ops : List RegistryOperator)
    (hn : (ops.map RegistryOperator.index).Nodup) :
    setCuratedOperatorsMetric gPrev ops = operatorEntriesAll ops ∧
    (∀ op ∈ ops,
      (setCuratedOperatorsMetric gPrev ops).filter
          (fun e => e.1.operator == op.index) = operatorEntries op) ∧
    (∀ i, i ∉ ops.map RegistryOperator.index →
      (setCuratedOperatorsMetric gPrev ops).filter
          (fun e => e.1.operator == i) = []) := by
  have hbase : setCuratedOperatorsMetric gPrev ops = operatorEntriesAll ops := by
    unfold setCuratedOperatorsMetric gaugeReset
    have := operatorMetric_fold ops [] hn (by intro e he; cases he)
    rw [this]
    rfl
  refine ⟨hbase, ?_, ?_⟩
  · intro op hop
    rw [hbase]
    exact operatorEntriesAll_filter_eq ops op hn hop
  · intro i hi
    rw [hbase]
    apply operatorEntriesAll_filter_ne
    intro op hop hcontra
    exact hi (hcontra ▸ List.mem_map_of_mem RegistryOperator.index hop)

/-- Operators of the current cycle, and a gauge still holding entries of a
removed operator (index 7) from the previous cycle. -/
def op1W : RegistryOperator := { index := 1, usedSigningKeys := 3, totalSigningKeys := 5 }

/-- Second operator of the current cycle. -/
def op2W : RegistryOperator := { index := 2, usedSigningKeys := 10, totalSigningKeys := 10 }

/-- Gauge contents left over from the previous cycle, including operator 7. -/
def gStale : List (OperatorLabels × Int) :=
  [(⟨7, 1, true⟩, 4), (⟨7, 1, false⟩, 1), (⟨1, 1, true⟩, 2), (⟨1, 1, false⟩, 3)]

/-- Witness for C9: rebuilding over `[op1W, op2W]` leaves exactly their four
entries; the removed operator 7 no longer appears. -/
theorem operator_metrics_rebuild_witness :
    setCuratedOperatorsMetric gStale [op1W, op2W] =
      operatorEntriesAll [op1W, op2W] ∧
    (setCuratedOperatorsMetric gStale [op1W, op2W]).filter
        (fun e => e.1.operator == op1W.index) = operatorEntries op1W ∧
    (setCuratedOperatorsMetric gStale [op1W, op2W]).filter
        (fun e => e.1.operator == 7) = [] := by
  have h := operator_metrics_rebuild gStale [op1W, op2W] (by decide)
  exact ⟨h.1, h.2.1 op1W (by decide), h.2.2 7 (by decide)⟩

/-! ## Cycle characterization lemmas -/

/-- Field values of the state a successful cycle produces, read back through
the metric and watchdog stages (all stages after `updateMetricsCache` leave
these cache fields untouched). -/
theorem ok_state_fields (s : SvcState) (mods : List StakingModule)
    (fetch : CuratedFetch) :
    (checkKeysUpdateTimeout (setMetrics
        (updateMetricsCache { s with stakingModules := mods } fetch))).lastBlockNumber =
      (match fetch.meta with
       | some m => some m.blockNumber
       | none => s.lastBlockNumber) ∧
    (checkKeysUpdateTimeout (setMetrics
        (updateMetricsCache { s with stakingModules := mods } fetch))).lastTimestampSec =
      (match fetch.meta with
       | some m => some m.timestamp
       | none => s.lastTimestampSec) ∧
    (checkKeysUpdateTimeout (setMetrics
        (updateMetricsCache { s with stakingModules := mods } fetch))).curatedNonce =
      (match fetch.meta with
       | some m => some m.keysOpIndex
       | none => s.curatedNonce) ∧
    (checkKeysUpdateTimeout (setMetrics
        (updateMetricsCache { s with stakingModules := mods } fetch))).curatedOperators =
      fetch.operators ∧
    (checkKeysUpdateTimeout (setMetrics
        (updateMetricsCache { s with stakingModules := mods } fetch))).stakingModules =
      mods ∧
    (checkKeysUpdateTimeout (setMetrics
        (updateMetricsCache { s with stakingModules := mods } fetch))).now = s.now ∧
    (checkKeysUpdateTimeout (setMetrics
        (updateMetricsCache { s with stakingModules := mods } fetch))).exited =
      s.exited ∧
    (checkKeysUpdateTimeout (setMetrics
        (updateMetricsCache { s with stakingModules := mods } fetch))).loggedErrors =
      s.loggedErrors ∧
    (checkKeysUpdateTimeout (setMetrics
        (updateMetricsCache { s with stakingModules := mods } fetch))).updateDeadlineTimer =
      some (s.now + UPDATE_KEYS_TIMEOUT_MS / 1000) :=
  ⟨rfl, rfl, rfl, rfl, rfl, rfl, rfl, rfl, rfl⟩

/-- A successful `updateKeys` decomposes into its fetched inputs and the
staged state transformation. -/
theorem updateKeys_ok (env : ChainEnv) (s s' : SvcState)
    (h : updateKeys env s = (s', Except.ok ())) :
    ∃ bh mods fetch,
      env.getBlockHash = Except.ok bh ∧
      env.getStakingModules bh = Except.ok mods ∧
      env.getOperatorsWithMeta = Except.ok fetch ∧
      s' = checkKeysUpdateTimeout (setMetrics
        (updateMetricsCache { s with stakingModules := mods } fetch)) := by
  unfold updateKeys at h
  split at h
  next e heq => simp at h
  next bh heq =>
    split at h
    next e heq2 => simp at h
    next mods heq2 =>
      split at h
      next e heq3 => simp at h
      next u heq3 =>
        split at h
        next e heq4 => simp at h
        next fetch heq4 =>
          simp only [Prod.mk.injEq] at h
          exact ⟨bh, mods, fetch, heq, heq2, heq4, h.1.symm⟩

/-- A failed `updateKeys` leaves the state as it was, except that the module
list may already have been replaced when the failure happened after the
module fetch. -/
theorem updateKeys_error (env : ChainEnv) (s s' : SvcState) (e : String)
    (h : updateKeys env s = (s', Except.error e)) :
    s' = s ∨ ∃ bh mods,
      env.getBlockHash = Except.ok bh ∧
      env.getStakingModules bh = Except.ok mods ∧
      s' = { s with stakingModules := mods } := by
  unfold updateKeys at h
  split at h
  next e' heq =>
    simp only [Prod.mk.injEq] at h
    exact Or.inl h.1.symm
  next bh heq =>
    split at h
    next e' heq2 =>
      simp only [Prod.mk.injEq] at h
      exact Or.inl h.1.symm
    next mods heq2 =>
      split at h
      next e' heq3 =>
        simp only [Prod.mk.injEq] at h
        exact Or.inr ⟨bh, mods, heq, heq2, h.1.symm⟩
      next u heq3 =>
        split at h
        next e' heq4 =>
          simp only [Prod.mk.injEq] at h
          exact Or.inr ⟨bh, mods, heq, heq2, h.1.symm⟩
        next fetch heq4 => simp at h

/-! ## C2 -/

/-- A cache state holding meta from an earlier cycle (block 100). -/
def sCached : SvcState :=
  { s0 with
    now := 5100
    lastTimestampSec := some 5000
    lastBlockNumber := some 100
    curatedNonce := some 7 }

/-- A chain environment whose operator/meta read returns meta that is older
(block 99) than the cached block 100. -/
def envStale : ChainEnv :=
  { getBlockHash := Except.ok "0xdef",
    getStakingModules := fun _ => Except.ok [modW],
    curatedUpdateKeys := fun _ => Except.ok (),
    getOperatorsWithMeta := Except.ok
      { operators := [],
        meta := some { keysOpIndex := 6, blockNumber := 99, timestamp := 4999 } } }

/-- Counterexample for C2: a cycle whose fetched meta has `blockNumber` 99,
strictly below the cached 100, completes successfully and overwrites the
cached block number and timestamp with the older values — the cycle is not
discarded and the cached block number regresses. -/
theorem staleMeta_overwrite_counterexample :
    sCached.lastBlockNumber = some 100 ∧
    (updateKeys envStale sCached).2 = Except.ok () ∧
    (updateKeys envStale sCached).1.lastBlockNumber = some 99 ∧
    (updateKeys envStale sCached).1.lastTimestampSec = some 4999 ∧
    (updateKeys envStale sCached).1.curatedNonce = some 6 ∧
    (99 : Nat) < 100 := by
  refine ⟨rfl, rfl, rfl, rfl, rfl, by decide⟩

/-- C2 (amended): there is no stale-read check — a successful cycle whose
fetched meta is non-null overwrites the cached block number, timestamp and
nonce with the fetched values even when the fetched block number is lower
than the cached one, and replaces the operator list unconditionally; only a
null meta leaves block number, timestamp and nonce unchanged. -/
theorem updateKeys_meta_overwrite (env : ChainEnv) (s s' : SvcState)
    (h : updateKeys env s = (s', Except.ok ())) :
    ∃ fetch, env.getOperatorsWithMeta = Except.ok fetch ∧
      s'.curatedOperators = fetch.operators ∧
      (∀ m, fetch.meta = some m →
        s'.lastBlockNumber = some m.blockNumber ∧
        s'.lastTimestampSec = some m.timestamp ∧
        s'.curatedNonce = some m.keysOpIndex) ∧
      (fetch.meta = none →
        s'.lastBlockNumber = s.lastBlockNumber ∧
        s'.lastTimestampSec = s.lastTimestampSec ∧
        s'.curatedNonce = s.curatedNonce) := by
  obtain ⟨bh, mods, fetch, hbh, hmods, hfetch, hs'⟩ := updateKeys_ok env s s' h
  subst hs'
  obtain ⟨hbn, hts, hnonce, hops, -⟩ := ok_state_fields s mods fetch
  refine ⟨fetch, hfetch, hops, ?_, ?_⟩
  · intro m hm
    rw [hm] at hbn hts hnonce
    exact ⟨hbn, hts, hnonce⟩
  · intro hm
    rw [hm] at hbn hts hnonce
    exact ⟨hbn, hts, hnonce⟩

/-- Witness for C2 (amended): the stale environment's fetched meta values are
what ends up cached. -/
theorem updateKeys_meta_overwrite_witness :
    ∃ fetch, envStale.getOperatorsWithMeta = Except.ok fetch ∧
      (updateKeys envStale sCached).1.curatedOperators = fetch.operators ∧
      (∀ m, fetch.meta = some m →
        (updateKeys envStale sCached).1.lastBlockNumber = some m.blockNumber ∧
        (updateKeys envStale sCached).1.lastTimestampSec = some m.timestamp ∧
        (updateKeys envStale sCached).1.curatedNonce = some m.keysOpIndex) ∧
      (fetch.meta = none →
        (updateKeys envStale sCached).1.lastBlockNumber = sCached.lastBlockNumber ∧
        (updateKeys envStale sCached).1.lastTimestampSec = sCached.lastTimestampSec ∧
        (updateKeys envStale sCached).1.curatedNonce = sCached.curatedNonce) :=
  updateKeys_meta_overwrite envStale sCached (updateKeys envStale sCached).1 rfl

/-! ## C4 -/

/-- A chain environment whose operators/meta read throws after the module
list was already fetched and assigned. -/
def envFail : ChainEnv :=
  { getBlockHash := Except.ok "0xabc",
    getStakingModules := fun _ => Except.ok [modW],
    curatedUpdateKeys := fun _ => Except.ok (),
    getOperatorsWithMeta := Except.error "connection refused" }

/-- Counterexample for C4: a cycle aborted by a chain-read exception thrown
after the module fetch has already replaced the cached module list — the
cached module list does not retain its pre-cycle value. -/
theorem failed_cycle_publishes_modules :
    (updateKeys envFail s0).2 = Except.error "connection refused" ∧
    s0.stakingModules = [] ∧
    (updateKeys envFail s0).1.stakingModules = [modW] := by
  refine ⟨rfl, rfl, rfl⟩

/-- C4 (amended): a cycle aborted by a chain-read exception publishes no
meta, operators, or metrics, and does not touch the watchdog deadline — the
error is only logged by the caller's catch handler — but when the failure
happens after the module-list fetch, the freshly fetched module list has
already been published into the cache; only a failure at or before the
module-list fetch leaves the module list unchanged. -/
theorem failed_cycle_no_publish_except_modules (env : ChainEnv)
    (s s' : SvcState) (e : String)
    (h : updateKeys env s = (s', Except.error e)) :
    s'.lastTimestampSec = s.lastTimestampSec ∧
    s'.lastBlockNumber = s.lastBlockNumber ∧
    s'.curatedNonce = s.curatedNonce ∧
    s'.curatedOperators = s.curatedOperators ∧
    s'.metrics = s.metrics ∧
    s'.pendingTimers = s.pendingTimers ∧
    s'.updateDeadlineTimer = s.updateDeadlineTimer ∧
    s'.exited = s.exited ∧
    s'.loggedErrors = s.loggedErrors ∧
    (s'.stakingModules = s.stakingModules ∨
      ∃ bh mods, env.getBlockHash = Except.ok bh ∧
        env.getStakingModules bh = Except.ok mods ∧
        s'.stakingModules = mods) ∧
    (s.exited = false →
      step s (Event.cycle env) =
        some { s' with loggedMessages := s'.loggedMessages ++ [e] }) := by
  have hcase := updateKeys_error env s s' e h
  have hstep : s.exited = false →
      step s (Event.cycle env) =
        some { s' with loggedMessages := s'.loggedMessages ++ [e] } := by
    intro hex
    simp [step, hex, h]
  rcases hcase with hcase | ⟨bh, mods, hbh, hmods, hcase⟩ <;> subst hcase
  · exact ⟨rfl, rfl, rfl, rfl, rfl, rfl, rfl, rfl, rfl, Or.inl rfl, hstep⟩
  · exact ⟨rfl, rfl, rfl, rfl, rfl, rfl, rfl, rfl, rfl,
      Or.inr ⟨bh, mods, hbh, hmods, rfl⟩, hstep⟩

/-- Witness for C4 (amended): the aborted cycle against `envFail` leaves all
cache fields except the module list at their pre-cycle values and only logs
the error. -/
theorem failed_cycle_no_publish_witness :
    (updateKeys envFail sCached).1.lastTimestampSec = sCached.lastTimestampSec ∧
    (updateKeys envFail sCached).1.lastBlockNumber = sCached.lastBlockNumber ∧
    (updateKeys envFail sCached).1.curatedNonce = sCached.curatedNonce ∧
    (updateKeys envFail sCached).1.curatedOperators = sCached.curatedOperators ∧
    (updateKeys envFail sCached).1.metrics = sCached.metrics ∧
    (updateKeys envFail sCached).1.pendingTimers = sCached.pendingTimers ∧
    (updateKeys envFail sCached).1.updateDeadlineTimer = sCached.updateDeadlineTimer ∧
    (updateKeys envFail sCached).1.exited = sCached.exited ∧
    (updateKeys envFail sCached).1.loggedErrors = sCached.loggedErrors ∧
    ((updateKeys envFail sCached).1.stakingModules = sCached.stakingModules ∨
      ∃ bh mods, envFail.getBlockHash = Except.ok bh ∧
        envFail.getStakingModules bh = Except.ok mods ∧
        (updateKeys envFail sCached).1.stakingModules = mods) ∧
    (sCached.exited = false →
      step sCached (Event.cycle envFail) =
        some { (updateKeys envFail sCached).1 with
          loggedMessages :=
            (updateKeys envFail sCached).1.loggedMessages ++
              ["connection refused"] }) :=
  failed_cycle_no_publish_except_modules envFail sCached
    (updateKeys envFail sCached).1 "connection refused" rfl

/-! ## C5 -/

/-- The intended relation between the stored timer handle and the pending
timers: the handle's timer is the only pending one. -/
def singleTimerInv (s : SvcState) : Prop :=
  s.pendingTimers =
    (match s.updateDeadlineTimer with
     | some t => [t]
     | none => [])

/-- Counterexample for C5: two consecutive re-arms while the cached
last-update timestamp is unset leave two deadline timers pending — the
second re-arm does not cancel the first timer. -/
theorem rearm_double_timer_counterexample :
    (checkKeysUpdateTimeout
        { checkKeysUpdateTimeout s0 with now := 10 }).pendingTimers =
      [1800, 1810] ∧
    (checkKeysUpdateTimeout
        { checkKeysUpdateTimeout s0 with now := 10 }).pendingTimers.length = 2 := by
  refine ⟨rfl, rfl⟩

/-- C5 (amended): a re-arm cancels the prior pending deadline only when a
prior timer handle exists and `isUpdated` holds (the cached last-update
timestamp is set, nonzero, and within the timeout of the current wall
clock); under that condition the new deadline is the only pending timer, but
a re-arm while the condition fails leaves the prior timer pending as well. -/
theorem rearm_single_timer_conditional (s : SvcState) (h : singleTimerInv s)
    (hc : s.updateDeadlineTimer = none ∨ isUpdated s = true) :
    singleTimerInv (checkKeysUpdateTimeout s) ∧
    (checkKeysUpdateTimeout s).pendingTimers =
      [s.now + UPDATE_KEYS_TIMEOUT_MS / 1000] := by
  unfold singleTimerInv at h
  have hpend : (checkKeysUpdateTimeout s).pendingTimers =
      [s.now + UPDATE_KEYS_TIMEOUT_MS / 1000] := by
    cases ht : s.updateDeadlineTimer with
    | none =>
      rw [ht] at h
      simp only [checkKeysUpdateTimeout, ht]
      rw [h]
      rfl
    | some t =>
      rcases hc with hc | hc
      · rw [ht] at hc
        cases hc
      · rw [ht] at h
        simp only [checkKeysUpdateTimeout, ht, hc, if_true]
        rw [h]
        simp
  refine ⟨?_, hpend⟩
  unfold singleTimerInv
  rw [hpend]
  rfl

/-- Witness for C5 (amended): re-arming from the initial state (no prior
handle) pends exactly the new deadline. -/
theorem rearm_single_timer_conditional_witness :
    singleTimerInv (checkKeysUpdateTimeout s0) ∧
    (checkKeysUpdateTimeout s0).pendingTimers =
      [s0.now + UPDATE_KEYS_TIMEOUT_MS / 1000] :=
  rearm_single_timer_conditional s0 (by unfold singleTimerInv; rfl) (Or.inl rfl)

/-! ## C6 -/

/-- C6: when a pending watchdog deadline fires, the process logs a
structured `KeyOutdatedError` carrying the last known block number and the
30-minute message, removes the fired timer without scheduling any new one,
and exits immediately — afterwards no event whatsoever can run (no retry,
no backoff). -/
theorem deadline_fire_logs_and_exits (s s' : SvcState) (d : Nat)
    (h : step s (Event.fire d) = some s') :
    s'.exited = true ∧
    s'.loggedErrors = s.loggedErrors ++
      [{ message := keyOutdatedMessage, lastBlock := s.lastBlockNumber }] ∧
    s'.pendingTimers = s.pendingTimers.erase d ∧
    s'.updateDeadlineTimer = s.updateDeadlineTimer ∧
    (∀ e, step s' e = none) ∧
    keyOutdatedMessage = "There were no keys update more than 30 minutes" := by
  have hex : s.exited = false := by
    by_contra hcontra
    have : s.exited = true := by
      cases hval : s.exited
      · exact absurd hval hcontra
      · rfl
    simp [step, this] at h
  rw [show step s (Event.fire d) =
      (if s.exited then none
       else if d ∈ s.pendingTimers ∧ s.now ≤ d then
         some (fireDeadline { s with now := d } d)
       else none) from rfl, hex] at h
  simp only [Bool.false_eq_true, if_false] at h
  split at h
  · injection h with h
    subst h
    refine ⟨rfl, rfl, rfl, rfl, ?_, rfl⟩
    intro e
    cases e <;> rfl
  · cases h

/-- A state with one armed watchdog deadline and a known block number. -/
def sArmed : SvcState :=
  { sCached with
    pendingTimers := [6900]
    updateDeadlineTimer := some 6900 }

/-- Witness for C6: firing the armed deadline of `sArmed`. -/
theorem deadline_fire_logs_and_exits_witness :
    (fireDeadline { sArmed with now := 6900 } 6900).exited = true ∧
    (fireDeadline { sArmed with now := 6900 } 6900).loggedErrors =
      sArmed.loggedErrors ++
        [{ message := keyOutdatedMessage, lastBlock := sArmed.lastBlockNumber }] ∧
    (fireDeadline { sArmed with now := 6900 } 6900).pendingTimers =
      sArmed.pendingTimers.erase 6900 ∧
    (fireDeadline { sArmed with now := 6900 } 6900).updateDeadlineTimer =
      sArmed.updateDeadlineTimer ∧
    (∀ e, step (fireDeadline { sArmed with now := 6900 } 6900) e = none) ∧
    keyOutdatedMessage = "There were no keys update more than 30 minutes" :=
  deadline_fire_logs_and_exits sArmed
    (fireDeadline { sArmed with now := 6900 } 6900) 6900 rfl

/-! ## C3 -/

/-- Any timer pending after a re-arm was already pending or is the newly
armed deadline. -/
theorem check_pending_sub (s : SvcState) (d : Nat)
    (hd : d ∈ (checkKeysUpdateTimeout s).pendingTimers) :
    d ∈ s.pendingTimers ∨ d = s.now + UPDATE_KEYS_TIMEOUT_MS / 1000 := by
  simp only [checkKeysUpdateTimeout, List.mem_append, List.mem_singleton] at hd
  rcases hd with hd | hd
  · left
    cases ht : s.updateDeadlineTimer with
    | none =>
      simp only [ht] at hd
      exact hd
    | some t =>
      simp only [ht] at hd
      by_cases hu : isUpdated s = true
      · rw [if_pos hu] at hd
        exact List.mem_of_mem_erase hd
      · rw [if_neg hu] at hd
        exact hd
  · right
    exact hd

/-- A cycle (successful or failed) keeps the clock and exit flag, and only
ever adds the freshly armed deadline to the pending timers. -/
theorem updateKeys_frame (env : ChainEnv) (s : SvcState) :
    (updateKeys env s).1.now = s.now ∧
    (updateKeys env s).1.exited = s.exited ∧
    (∀ d ∈ (updateKeys env s).1.pendingTimers,
      d ∈ s.pendingTimers ∨ d = s.now + UPDATE_KEYS_TIMEOUT_MS / 1000) := by
  rcases heq : updateKeys env s with ⟨s', r⟩
  show s'.now = s.now ∧ s'.exited = s.exited ∧
    (∀ d ∈ s'.pendingTimers,
      d ∈ s.pendingTimers ∨ d = s.now + UPDATE_KEYS_TIMEOUT_MS / 1000)
  cases r with
  | ok u =>
    cases u
    obtain ⟨bh, mods, fetch, -, -, -, hs'⟩ := updateKeys_ok env s s' heq
    subst hs'
    refine ⟨rfl, rfl, ?_⟩
    intro d hd
    exact check_pending_sub
      (setMetrics (updateMetricsCache { s with stakingModules := mods } fetch)) d hd
  | error e =>
    rcases updateKeys_error env s s' e heq with hs' | ⟨bh, mods, -, -, hs'⟩ <;>
      subst hs'
    · exact ⟨rfl, rfl, fun d hd => Or.inl hd⟩
    · exact ⟨rfl, rfl, fun d hd => Or.inl hd⟩

/-- One non-fire step from a live state whose clock has not passed any
pending deadline reaches another such state. -/
theorem step_frame (s s' : SvcState) (e : Event) (h : step s e = some s')
    (hnf : e.isFire = false) (hex : s.exited = false)
    (hinv : ∀ d ∈ s.pendingTimers, s.now ≤ d) :
    s'.exited = false ∧ (∀ d ∈ s'.pendingTimers, s'.now ≤ d) := by
  cases e with
  | advance dt =>
    simp only [step, hex, Bool.false_eq_true, if_false] at h
    split at h
    next hall =>
      injection h with h
      subst h
      refine ⟨by simp [hex], ?_⟩
      intro d hd
      exact of_decide_eq_true (List.all_eq_true.mp hall d hd)
    next => cases h
  | cycle env =>
    obtain ⟨hnow, hexit, hsub⟩ := updateKeys_frame env s
    simp only [step, hex, Bool.false_eq_true, if_false] at h
    split at h
    next u hp =>
      injection h with h
      subst h
      refine ⟨?_, ?_⟩
      · show (updateKeys env s).1.exited = false
        rw [hexit]
        exact hex
      · intro d hd
        have hd' : d ∈ (updateKeys env s).1.pendingTimers := hd
        show (updateKeys env s).1.now ≤ d
        rw [hnow]
        rcases hsub d hd' with hold | hnew
        · exact hinv d hold
        · rw [hnew]
          exact Nat.le_add_right s.now _
    next e' hp =>
      injection h with h
      subst h
      refine ⟨?_, ?_⟩
      · show (updateKeys env s).1.exited = false
        rw [hexit]
        exact hex
      · intro d hd
        have hd' : d ∈ (updateKeys env s).1.pendingTimers := hd
        show (updateKeys env s).1.now ≤ d
        rw [hnow]
        rcases hsub d hd' with hold | hnew
        · exact hinv d hold
        · rw [hnew]
          exact Nat.le_add_right s.now _
  | fire d =>
    simp [Event.isFire] at hnf

/-- Over any fire-free event sequence, a live state whose clock has not
passed any pending deadline stays live and never passes a pending deadline. -/
theorem run_no_fire_inv (evs : List Event) (s sF : SvcState)
    (hex : s.exited = false) (hinv : ∀ d ∈ s.pendingTimers, s.now ≤ d)
    (hrun : run s evs = some sF) (hnf : ∀ e ∈ evs, e.isFire = false) :
    sF.exited = false ∧ ∀ d ∈ sF.pendingTimers, sF.now ≤ d := by
  induction evs generalizing s with
  | nil =>
    simp only [run] at hrun
    injection hrun with hrun
    subst hrun
    exact ⟨hex, hinv⟩
  | cons e es ih =>
    simp only [run] at hrun
    cases hstep : step s e with
    | none => rw [hstep] at hrun; cases hrun
    | some s1 =>
      rw [hstep] at hrun
      obtain ⟨hex1, hinv1⟩ := step_frame s s1 e hstep
        (hnf e (List.mem_cons_self e es)) hex hinv
      exact ih s1 hex1 hinv1 hrun (fun x hx => hnf x (List.mem_cons_of_mem e hx))

/-- The freshly armed deadline is always pending after a re-arm. -/
theorem check_pending_new (s : SvcState) :
    s.now + UPDATE_KEYS_TIMEOUT_MS / 1000 ∈
      (checkKeysUpdateTimeout s).pendingTimers := by
  simp only [checkKeysUpdateTimeout, List.mem_append, List.mem_singleton]
  right
  trivial

/-- C3 (amended): every completed cycle re-arms the watchdog with a fresh
deadline one timeout ahead, but what it records is the fetched chain meta
timestamp — not the wall-clock time of the cycle — and the prior deadline is
cancelled only when that recorded timestamp is fresh; while the process is
live, the wall clock can never pass a pending deadline without the deadline
firing, and a firing deadline exits the process — so if no cycle completes
within the timeout the process terminates, but completing cycles prevent
termination only when their recorded meta timestamp is set and fresh. -/
theorem watchdog_rearm_and_deadline (env : ChainEnv) (s sF : SvcState)
    (evs : List Event) (fetch : CuratedFetch) (m : RegistryMeta) :
    ((updateKeys env s).2 = Except.ok () →
      (updateKeys env s).1.updateDeadlineTimer =
        some (s.now + UPDATE_KEYS_TIMEOUT_MS / 1000) ∧
      s.now + UPDATE_KEYS_TIMEOUT_MS / 1000 ∈
        (updateKeys env s).1.pendingTimers) ∧
    ((updateKeys env s).2 = Except.ok () →
      env.getOperatorsWithMeta = Except.ok fetch → fetch.meta = some m →
      (updateKeys env s).1.lastTimestampSec = some m.timestamp) ∧
    (s.exited = false → (∀ d ∈ s.pendingTimers, s.now ≤ d) →
      run s evs = some sF → (∀ e ∈ evs, e.isFire = false) →
      sF.exited = false ∧ ∀ d ∈ sF.pendingTimers, sF.now ≤ d) ∧
    (∀ d s', step s (Event.fire d) = some s' →
      s'.exited = true ∧ s'.now = d) := by
  have hdecomp : (updateKeys env s).2 = Except.ok () →
      ∃ bh mods fetch', env.getBlockHash = Except.ok bh ∧
        env.getStakingModules bh = Except.ok mods ∧
        env.getOperatorsWithMeta = Except.ok fetch' ∧
        (updateKeys env s).1 = checkKeysUpdateTimeout (setMetrics
          (updateMetricsCache { s with stakingModules := mods } fetch')) := by
    intro hok
    have hpair : updateKeys env s = ((updateKeys env s).1, Except.ok ()) := by
      rw [← hok]
    exact updateKeys_ok env s (updateKeys env s).1 hpair
  refine ⟨?_, ?_, ?_, ?_⟩
  · intro hok
    obtain ⟨bh, mods, fetch', -, -, -, hs'⟩ := hdecomp hok
    rw [hs']
    exact ⟨rfl, check_pending_new
      (setMetrics (updateMetricsCache { s with stakingModules := mods } fetch'))⟩
  · intro hok hfetch hm
    obtain ⟨bh, mods, fetch', -, -, hfetch', hs'⟩ := hdecomp hok
    rw [hfetch] at hfetch'
    injection hfetch' with hfetch'
    subst hfetch'
    rw [hs']
    obtain ⟨-, hts, -⟩ := ok_state_fields s mods fetch
    rw [hts, hm]
  · exact fun hex hinv hrun hnf => run_no_fire_inv evs s sF hex hinv hrun hnf
  · intro d s' h
    simp only [step] at h
    split at h
    · cases h
    · split at h
      · injection h with h
        subst h
        exact ⟨rfl, rfl⟩
      · cases h

/-- A chain environment whose operators/meta read returns a null meta row
(nothing stored yet), so `lastTimestampSec` is never set. -/
def envNullMeta : ChainEnv :=
  { getBlockHash := Except.ok "0xa",
    getStakingModules := fun _ => Except.ok [],
    curatedUpdateKeys := fun _ => Except.ok (),
    getOperatorsWithMeta := Except.ok { operators := [], meta := none } }

/-- `n` rounds of "100 seconds pass, then a cycle completes", followed by
100 more seconds and the initial watchdog deadline (armed at `t = 0`,
due at `t = 1800`) firing. -/
def nullCycleEvents : Nat → List Event
  | 0 => [Event.advance 100, Event.fire 1800]
  | n + 1 => Event.advance 100 :: Event.cycle envNullMeta :: nullCycleEvents n

/-- Counterexample for C3: from the startup re-arm, seventeen refresh cycles
complete successfully at 100-second intervals (well within the 1800-second
timeout, each re-arming a fresh deadline, with nothing logged as failed),
yet the deadline armed at startup is never cancelled — because the cached
meta timestamp stays unset, not because cycles stopped — and at `t = 1800`
it fires and the process terminates. -/
theorem watchdog_terminates_despite_cycles :
    (run (checkKeysUpdateTimeout s0) (nullCycleEvents 17)).map
        (fun sf => (sf.exited, sf.loggedMessages, sf.loggedErrors.length,
          sf.pendingTimers.length)) =
      some (true, [], 1, 17) := by
  decide

/-- A live armed state used by the C3 witness (fresh cached timestamp). -/
def sW3 : SvcState :=
  { sCached with
    pendingTimers := [9999]
    updateDeadlineTimer := some 9999 }

/-- A chain environment returning fresh meta (block 101, timestamp 5100). -/
def envMeta : ChainEnv :=
  { getBlockHash := Except.ok "0x1",
    getStakingModules := fun _ => Except.ok [modW],
    curatedUpdateKeys := fun _ => Except.ok (),
    getOperatorsWithMeta := Except.ok
      { operators := [op1W],
        meta := some { keysOpIndex := 8, blockNumber := 101, timestamp := 5100 } } }

/-- Witness for C3 (amended): a successful cycle at `t = 5100` re-arms a
deadline at `t = 6900`, records the fetched meta timestamp, the fire-free
trace keeps the process live, and firing the pending deadline exits. -/
theorem watchdog_rearm_and_deadline_witness :
    ((updateKeys envMeta sW3).1.updateDeadlineTimer = some 6900 ∧
      (6900 : Nat) ∈ (updateKeys envMeta sW3).1.pendingTimers) ∧
    (updateKeys envMeta sW3).1.lastTimestampSec = some 5100 ∧
    (sW3.exited = false ∧ ∀ d ∈ sW3.pendingTimers, sW3.now ≤ d) ∧
    ((fireDeadline { sW3 with now := 9999 } 9999).exited = true ∧
      (fireDeadline { sW3 with now := 9999 } 9999).now = 9999) := by
  have h := watchdog_rearm_and_deadline envMeta sW3 sW3 []
    { operators := [op1W],
      meta := some { keysOpIndex := 8, blockNumber := 101, timestamp := 5100 } }
    { keysOpIndex := 8, blockNumber := 101, timestamp := 5100 }
  refine ⟨h.1 rfl, h.2.1 rfl rfl rfl, ?_, ?_⟩
  · exact h.2.2.1 rfl (by decide) rfl (by simp)
  · exact h.2.2.2 9999 (fireDeadline { sW3 with now := 9999 } 9999) rfl
